import Mathlib

/-!
Verification development for mgit's concurrent fetch-and-reconcile core
(`src/cmd/pull.rs`) and its shared UI model (`src/ui.rs`).

The Rust code is shallowly embedded: pure decision logic becomes Lean
functions, the mutable git repository state (branch reference target,
worktree) becomes an explicit `GitState` threaded through the functions,
and fallible libgit2 calls become `Except`/`Option`-valued inputs that
record what the underlying library returned at that call site.
-/

namespace Mgit

/-! ## Kind (src/ui.rs lines 11-21)

Rust: `enum Kind { None, Success, Warning, Failure }` with a derived
`PartialOrd`, which orders constructors by declaration order:
`None < Success < Warning < Failure`. -/

inductive Kind where
  | none
  | success
  | warning
  | failure
deriving DecidableEq, Repr

/-- Rank of a `Kind` in the derived order (declaration order in the Rust enum). -/
def Kind.toNat : Kind → Nat
  | Kind.none => 0
  | Kind.success => 1
  | Kind.warning => 2
  | Kind.failure => 3

/-- The Rust `PartialOrd` comparison `a < b` on `Kind`. -/
def Kind.ltb (a b : Kind) : Bool := a.toNat < b.toNat

/-! ## Note (src/ui.rs lines 27-60) -/

structure Note where
  group : Nat
  kind : Kind
  message : String
deriving DecidableEq, Repr

/-! ## Summary (src/ui.rs lines 109-162)

A `Summary` is its vec of notes. `push_note` appends one note,
`push_summary` appends all of another summary's notes. -/

abbrev Summary := List Note

/-- `Summary::new` (src/ui.rs line 116). -/
def summaryNew : Summary := []

/-- `Summary::push_note` (src/ui.rs line 124). -/
def pushNote (s : Summary) (n : Note) : Summary := s ++ [n]

/-- `Summary::push_summary` (src/ui.rs line 132): appends clones of the
other summary's notes. -/
def pushSummary (s other : Summary) : Summary := s ++ other

/-- `Summary::kind` (src/ui.rs lines 152-161): starts from `Kind::None`
and replaces the running value whenever a note's kind is strictly
greater in the derived order. -/
def summaryKind (s : Summary) : Kind :=
  s.foldl (fun rv n => if Kind.ltb rv n.kind then n.kind else rv) Kind.none

/-! ## Note groups (src/cmd/pull.rs lines 41-48) -/

def FETCH_FAILURE_GROUP : Nat := 0
def BRANCH_FAILURE_GROUP : Nat := 1
def FETCH_SUCCESS_GROUP : Nat := 100
def BRANCH_STATUS_GROUP : Nat := 101

/-! ## Git state and per-branch reconciliation (src/cmd/pull.rs lines 469-593)

`GitState` is the mutable repository state a single branch reconciliation
can touch: the local branch reference's target oid and the worktree's
checked-out commit. Oids are modelled as naturals.

`BranchInfo` carries the validated tracking-branch data together with the
outcomes of the fallible libgit2 calls the code makes for this branch:
`aheadBehind` is the result of `graph_ahead_behind(local_oid, upstream_oid)`;
`statuses` is the result of `git.statuses(..)` (number of status entries:
index, modified, and untracked files, submodules excluded) — it is only
consulted when the branch is HEAD; `setTarget` is the error, if any, of
`Reference::set_target`; `reset` is the error, if any, of the hard
`git.reset` performed for HEAD branches after a successful ref update. -/

structure GitState where
  refOid : Nat
  worktreeOid : Nat
deriving DecidableEq, Repr

structure BranchInfo where
  localName : String
  upstreamName : String
  upstreamOid : Nat
  isHead : Bool
  aheadBehind : Except String (Nat × Nat)
  statuses : Except String Nat
  setTarget : Option String
  reset : Option String
deriving Repr

/-- The `error_message` prefix built at src/cmd/pull.rs lines 519-522. -/
def ffErrorMessage (b : BranchInfo) : String :=
  "failed to fast-forward " ++ b.localName ++ " to " ++ b.upstreamName

/-- The fast-forward attempt (src/cmd/pull.rs lines 547-586): move the
local reference to the upstream oid with reflog message "mgit:
fast-forward"; on success, if the branch is HEAD, additionally hard-reset
the worktree to the upstream commit. Note that a failing hard reset does
not roll the reference update back. -/
def ffAttempt (b : BranchInfo) (g : GitState) : List Note × GitState :=
  match b.setTarget with
  | Option.some e =>
    ([Note.mk BRANCH_STATUS_GROUP Kind.failure
        (ffErrorMessage b ++ " (" ++ e ++ ")")], g)
  | Option.none =>
    let g1 : GitState := { g with refOid := b.upstreamOid }
    if b.isHead then
      match b.reset with
      | Option.some e =>
        ([Note.mk BRANCH_STATUS_GROUP Kind.failure
            ("failed to hard reset worktree (" ++ e ++ ")")], g1)
      | Option.none =>
        ([Note.mk BRANCH_STATUS_GROUP Kind.success
            ("fast-forwarded " ++ b.localName ++ " to " ++ b.upstreamName)],
         { g1 with worktreeOid := b.upstreamOid })
    else
      ([Note.mk BRANCH_STATUS_GROUP Kind.success
          ("fast-forwarded " ++ b.localName ++ " to " ++ b.upstreamName)], g1)

/-- The body of the per-branch loop in `fetch_and_ff` (src/cmd/pull.rs
lines 471-593): classify the branch by ahead/behind, then report
divergence / ahead, attempt a fast-forward (gated, for HEAD, on a clean
worktree), or report up-to-date. Returns the notes pushed for this branch
and the resulting git state. -/
def processBranch (b : BranchInfo) (g : GitState) : List Note × GitState :=
  match b.aheadBehind with
  | Except.error e =>
    ([Note.mk BRANCH_FAILURE_GROUP Kind.failure
        ("failed to determine relationship between local branch " ++ b.localName ++
         " and upstream branch " ++ b.upstreamName ++ " (" ++ e ++ ")")], g)
  | Except.ok (ahead, behind) =>
    if 0 < ahead ∧ 0 < behind then
      ([Note.mk BRANCH_STATUS_GROUP Kind.failure
          (b.localName ++ " has diverged from " ++ b.upstreamName ++ " (" ++
           toString ahead ++ " and " ++ toString behind ++ " commits)")], g)
    else if 0 < ahead then
      ([Note.mk BRANCH_STATUS_GROUP Kind.warning
          (b.localName ++ " is ahead of " ++ b.upstreamName ++ " by " ++
           toString ahead ++ " commit" ++ (if ahead = 1 then "" else "s"))], g)
    else if 0 < behind then
      if b.isHead then
        match b.statuses with
        | Except.error e =>
          ([Note.mk BRANCH_FAILURE_GROUP Kind.failure
              (ffErrorMessage b ++ " (could not get worktree status) (" ++ e ++ ")")], g)
        | Except.ok n =>
          if n ≠ 0 then
            ([Note.mk BRANCH_FAILURE_GROUP Kind.failure
                (ffErrorMessage b ++ " (worktree is dirty)")], g)
          else
            ffAttempt b g
      else
        ffAttempt b g
    else
      ([Note.mk BRANCH_STATUS_GROUP Kind.none
          (b.localName ++ " is up to date with " ++ b.upstreamName)], g)

/-! ## fetch_and_ff (src/cmd/pull.rs lines 389-608)

`canceled` records whether a termination message arrived on `term_rx`
while the `git fetch` child was still running (lines 418-430): in that
case the child's process group is killed and `Summary::new()` — the empty
summary — is returned immediately. `fetchError` is the combined
stdout/stderr message when the fetch subprocess failed (lines 434-452).
`branches` is the result of `TrackingBranches::for_remote` (line 469):
either the validated branches (with their git state) or the list of
validation error messages. -/
def fetchAndFF (canceled : Bool) (fetchError : Option String) (remote : String)
    (branches : Except (List String) (List (BranchInfo × GitState))) : Summary :=
  if canceled then summaryNew
  else
    match fetchError with
    | Option.some msg =>
      [Note.mk FETCH_FAILURE_GROUP Kind.failure
         ("failed to fetch from " ++ remote ++ ": " ++ msg)]
    | Option.none =>
      Note.mk FETCH_SUCCESS_GROUP Kind.none ("fetched from " ++ remote) ::
        (match branches with
         | Except.error errs =>
           errs.map (fun e => Note.mk BRANCH_FAILURE_GROUP Kind.failure e)
         | Except.ok bs =>
           (bs.map (fun p => (processBranch p.1 p.2).1)).flatten)

/-! ## TrackingBranches validation (src/ui.rs lines 164-393)

The git2 data a local branch exposes during validation. `name` models
`Branch::name`: an error, or `Option.none` for a name that is not valid
utf-8, or the decoded name. `target` models `branch.get().target()` (the
resolved oid, if any). `upstream` models `Branch::upstream`: the code
treats any `Err` as "no upstream" and silently skips the branch, so an
absent upstream is `Option.none`. -/

instance {ε α : Type} [DecidableEq ε] [DecidableEq α] : DecidableEq (Except ε α) := fun x y => by
  cases x <;> cases y <;>
    first
    | (apply isFalse; intro h; exact Except.noConfusion h)
    | (rename_i a b
       exact if h : a = b then isTrue (by rw [h])
             else isFalse (by intro hc; injection hc; contradiction))

structure UpstreamData where
  name : Except String (Option String)
  target : Option Nat
deriving DecidableEq, Repr

structure LocalBranchData where
  name : Except String (Option String)
  target : Option Nat
  upstream : Option UpstreamData
deriving DecidableEq, Repr

/-- Outcome of validating one entry of the branch iterator in
`TrackingBranches::get` (src/ui.rs lines 299-372). -/
inductive BranchCheck where
  | valid (b : LocalBranchData)
  | invalid (msg : String)
  | skipped
deriving DecidableEq, Repr

/-- One iteration of the validation loop in `TrackingBranches::get`
(src/ui.rs lines 299-372). The input is one item of the branch iterator:
`Except.error e` when the iterator itself yields an error for this entry. -/
def checkBranch : Except String LocalBranchData → BranchCheck
  | Except.error e =>
    BranchCheck.invalid ("failed to get info for local branch (" ++ e ++ ")")
  | Except.ok local_ =>
    match local_.name with
    | Except.error e =>
      BranchCheck.invalid ("failed to get name of local branch (" ++ e ++ ")")
    | Except.ok Option.none =>
      BranchCheck.invalid "local branch name is not valid utf-8"
    | Except.ok (Option.some localName) =>
      if local_.target = Option.none then
        BranchCheck.invalid ("failed to resolve oid for local branch " ++ localName)
      else
        match local_.upstream with
        | Option.none => BranchCheck.skipped
        | Option.some up =>
          match up.name with
          | Except.error e =>
            BranchCheck.invalid
              ("failed to get name of upstream branch for local branch " ++
               localName ++ " (" ++ e ++ ")")
          | Except.ok Option.none =>
            BranchCheck.invalid
              ("upstream branch name for local branch '" ++ localName ++
               "' is not valid utf-8")
          | Except.ok (Option.some upName) =>
            if up.target = Option.none then
              BranchCheck.invalid
                ("failed to resolve oid for upstream branch " ++ upName ++
                 " (local branch is " ++ localName ++ ")")
            else
              BranchCheck.valid local_

/-- The `rv` vec accumulated by `TrackingBranches::get` (src/ui.rs line
371): the branches the validation loop found valid, in order. -/
def validBranches (items : List (Except String LocalBranchData)) : List LocalBranchData :=
  items.filterMap (fun i =>
    match checkBranch i with
    | BranchCheck.valid b => Option.some b
    | _ => Option.none)

/-- The `errors` vec accumulated by `TrackingBranches::get`: the messages
of the validation failures, in order. -/
def validationErrors (items : List (Except String LocalBranchData)) : List String :=
  items.filterMap (fun i =>
    match checkBranch i with
    | BranchCheck.invalid m => Option.some m
    | _ => Option.none)

/-- `TrackingBranches::get` (src/ui.rs lines 285-379). The input models
`git.branches(Some(BranchType::Local))`: an error for the whole
enumeration, or the list of per-branch items. Valid branches are
collected into `rv` and error messages into `errors`; if any error was
collected the whole result is the error list (src/ui.rs lines 374-378). -/
def trackingBranchesGet (branches : Except String (List (Except String LocalBranchData))) :
    Except (List String) (List LocalBranchData) :=
  match branches with
  | Except.error e =>
    Except.error ["failed to fetch local branch data (" ++ e ++ ")"]
  | Except.ok items =>
    if (validationErrors items).isEmpty then Except.ok (validBranches items)
    else Except.error (validationErrors items)

/-! Accessors of `TrackingBranch` (src/ui.rs lines 172-224). Each Rust
accessor unwraps with `expect`, panicking when the underlying value is
absent; the model returns `Option.none` exactly where the Rust code would
panic. -/

/-- `TrackingBranch::local_name` (src/ui.rs lines 185-191). -/
def localNameAcc (b : LocalBranchData) : Option String :=
  match b.name with
  | Except.ok (Option.some n) => Option.some n
  | _ => Option.none

/-- `TrackingBranch::local_oid` (src/ui.rs lines 194-199). -/
def localOidAcc (b : LocalBranchData) : Option Nat := b.target

/-- `TrackingBranch::upstream` (src/ui.rs lines 202-206). -/
def upstreamAcc (b : LocalBranchData) : Option UpstreamData := b.upstream

/-- `TrackingBranch::upstream_name` (src/ui.rs lines 209-215). -/
def upstreamNameAcc (b : LocalBranchData) : Option String :=
  match b.upstream with
  | Option.some u =>
    match u.name with
    | Except.ok (Option.some n) => Option.some n
    | _ => Option.none
  | Option.none => Option.none

/-- `TrackingBranch::upstream_oid` (src/ui.rs lines 218-223). -/
def upstreamOidAcc (b : LocalBranchData) : Option Nat :=
  match b.upstream with
  | Option.some u => u.target
  | Option.none => Option.none

/-- `TrackingBranches::for_repository` (src/ui.rs lines 250-257). -/
def forRepository (branches : Except String (List (Except String LocalBranchData))) :
    Except (List String) (List LocalBranchData) :=
  trackingBranchesGet branches

/-- `TrackingBranches::for_remote` (src/ui.rs lines 262-280): same as
`for_repository` but keeps only branches whose upstream name starts with
the remote's name. (The Rust filter calls `upstream_name()`, which cannot
panic for validated branches; the model reads the validated name.) -/
def forRemote (branches : Except String (List (Except String LocalBranchData)))
    (remote : String) : Except (List String) (List LocalBranchData) :=
  match trackingBranchesGet branches with
  | Except.ok bs =>
    Except.ok (bs.filter (fun b => ((upstreamNameAcc b).getD "").startsWith remote))
  | Except.error e => Except.error e

/-! ## Scheduler (src/cmd/pull.rs lines 79-317)

`TState` is the per-remote UI `State` enum (src/cmd/pull.rs lines
613-632) and `TermState` the `TerminationState` enum (lines 321-330).

`Sched` is the scheduler state owned by the main loop: the queue of
`(repo, remote)` tasks still to fetch (`remotes` in the code, modelled by
task ids), the `active` counter, the termination state, the list of
spawned workers' termination-channel senders (`term_txs`), and the set of
workers a terminate message has been sent to.

`step` is one iteration of the main loop (lines 198-273). Its per-
iteration inputs are the messages drained from the results channel
(`completions`: task id and the worker's returned summary) and the value
of `invocation.sigterms_received()` as observed in this iteration. It
returns the new state together with the list of `ui.update_state` calls
made during the iteration. -/

inductive TState where
  | pending
  | canceled
  | fetching
  | noChange
  | success
  | warning
  | failure
deriving DecidableEq, Repr

inductive TermState where
  | none
  | soft
  | hard
deriving DecidableEq, Repr

structure Sched where
  queue : List Nat
  active : Nat
  term : TermState
  txs : List Nat
  sentTerm : List Nat
deriving DecidableEq, Repr

/-- Translation of a completed worker's summary kind into a UI state
(src/cmd/pull.rs lines 205-210). -/
def stateOfKind : Kind → TState
  | Kind.none => TState.noChange
  | Kind.success => TState.success
  | Kind.warning => TState.warning
  | Kind.failure => TState.failure

/-- The launch loop (src/cmd/pull.rs lines 249-268): while a thread is
available and tasks remain, pop the head task, mark it `Fetching`, spawn
a worker (recording its termination channel), and increment `active`.
Returns the new active count, the remaining queue, and the launched task
ids in launch order. -/
def launch (N : Nat) : Nat → List Nat → Nat × List Nat × List Nat
  | a, [] => (a, [], [])
  | a, t :: rest =>
    if a < N then
      let r := launch N (a + 1) rest
      (r.1, r.2.1, t :: r.2.2)
    else (a, t :: rest, [])

/-- One iteration of the scheduler loop (src/cmd/pull.rs lines 198-273),
in the code's order: drain completed results (decrementing `active` and
emitting a UI state per completion), process a `None → Soft` transition
(drain the queue, marking every queued task `Canceled`), process a
`Soft → Hard` transition (send a terminate message to every spawned
worker), then launch new workers while capacity remains. -/
def step (N : Nat) (s : Sched) (completions : List (Nat × Summary)) (sigterms : Nat) :
    Sched × List (Nat × TState) :=
  let a1 := s.active - completions.length
  let ev1 := completions.map (fun c => (c.1, stateOfKind (summaryKind c.2)))
  let softNow := s.term = TermState.none ∧ 0 < sigterms
  let q2 := if softNow then [] else s.queue
  let term2 := if softNow then TermState.soft else s.term
  let ev2 := if softNow then s.queue.map (fun t => (t, TState.canceled)) else []
  let hardNow := term2 = TermState.soft ∧ 1 < sigterms
  let term3 := if hardNow then TermState.hard else term2
  let sent3 := if hardNow then s.txs else s.sentTerm
  let l := launch N a1 q2
  ({ queue := l.2.1, active := l.1, term := term3, txs := s.txs ++ l.2.2,
     sentTerm := sent3 },
   ev1 ++ ev2 ++ l.2.2.map (fun t => (t, TState.fetching)))

/-- The loop guard `active > 0 || !remotes.is_empty()`
(src/cmd/pull.rs line 198). -/
def loopContinues (s : Sched) : Bool :=
  decide (0 < s.active) || !(s.queue.isEmpty)

/-- The states the scheduler passes through while consuming the given
per-iteration inputs (a completions list and a sigterm count for each
iteration of the loop). -/
def schedStates (N : Nat) : Sched → List (List (Nat × Summary) × Nat) → List Sched
  | s, [] => [s]
  | s, i :: rest => s :: schedStates N (step N s i.1 i.2).1 rest

/-- The final-report decision after the loop (src/cmd/pull.rs lines
283-286): after a hard termination the report is suppressed entirely. -/
def finalReport (s : Sched) (report : List String) : Option (List String) :=
  if s.term = TermState.hard then Option.none else Option.some report

/-! ## Concrete instances used to evaluate the definitions -/

def baseState : GitState := { refOid := 3, worktreeOid := 3 }

/-- A checked-out branch, two commits behind, with three dirty status
entries. -/
def dirtyHeadBranch : BranchInfo :=
  { localName := "master", upstreamName := "origin/master", upstreamOid := 7,
    isHead := true, aheadBehind := Except.ok (0, 2), statuses := Except.ok 3,
    setTarget := Option.none, reset := Option.none }

/-- A checked-out branch, one commit behind, with a clean worktree and
all git operations succeeding. -/
def cleanHeadBranch : BranchInfo :=
  { localName := "master", upstreamName := "origin/master", upstreamOid := 7,
    isHead := true, aheadBehind := Except.ok (0, 1), statuses := Except.ok 0,
    setTarget := Option.none, reset := Option.none }

/-- A non-HEAD branch that is both ahead and behind its upstream. -/
def divergedBranch : BranchInfo :=
  { localName := "topic", upstreamName := "origin/topic", upstreamOid := 7,
    isHead := false, aheadBehind := Except.ok (1, 2), statuses := Except.ok 0,
    setTarget := Option.none, reset := Option.none }

/-- A checked-out, clean branch, two commits behind, whose reference
update succeeds but whose hard reset fails. -/
def resetFailBranch : BranchInfo :=
  { localName := "master", upstreamName := "origin/master", upstreamOid := 7,
    isHead := true, aheadBehind := Except.ok (0, 2), statuses := Except.ok 0,
    setTarget := Option.none, reset := Option.some "io error" }

/-- Scheduler state: three queued tasks, nothing running. -/
def demoSched : Sched :=
  { queue := [0, 1, 2], active := 0, term := TermState.none, txs := [], sentTerm := [] }

def demoInputs : List (List (Nat × Summary) × Nat) := [([], 0), ([(0, []), (1, [])], 0)]

/-- Scheduler state with two queued tasks and one running worker, about
to observe its first termination signal. -/
def c6Sched : Sched :=
  { queue := [4, 5], active := 1, term := TermState.none, txs := [9], sentTerm := [] }

/-- Scheduler state right after a hard cancellation: one worker (task 0)
still in flight, terminate message sent. -/
def c7Sched : Sched :=
  { queue := [], active := 1, term := TermState.hard, txs := [0], sentTerm := [0] }

/-- A fully valid tracking branch as seen by validation. -/
def validLocalBranch : LocalBranchData :=
  { name := Except.ok (Option.some "dev"),
    target := Option.some 11,
    upstream := Option.some
      { name := Except.ok (Option.some "origin/dev"), target := Option.some 12 } }

/-- A local branch whose name is not valid utf-8. -/
def invalidLocalBranch : LocalBranchData :=
  { name := Except.ok Option.none, target := Option.none, upstream := Option.none }

def demoNotes : Summary :=
  [Note.mk 0 Kind.success "fetched", Note.mk 1 Kind.warning "ahead"]

/-! ## Helper lemmas -/

theorem kindFold_init_le (notes : List Note) : ∀ init : Kind,
    init.toNat ≤ (notes.foldl (fun rv n => if Kind.ltb rv n.kind then n.kind else rv) init).toNat := by
  induction notes with
  | nil => intro init; exact Nat.le_refl _
  | cons m ms ih =>
    intro init
    simp only [List.foldl_cons]
    refine Nat.le_trans ?_ (ih (if Kind.ltb init m.kind then m.kind else init))
    by_cases h : Kind.ltb init m.kind
    · simp only [h, if_pos]
      exact Nat.le_of_lt (by simpa [Kind.ltb] using h)
    · simp [h]

theorem kindFold_mem_le (notes : List Note) : ∀ (init : Kind) (n : Note), n ∈ notes →
    n.kind.toNat ≤ (notes.foldl (fun rv n => if Kind.ltb rv n.kind then n.kind else rv) init).toNat := by
  induction notes with
  | nil => intro init n h; exact absurd h (List.not_mem_nil n)
  | cons m ms ih =>
    intro init n h
    rcases List.mem_cons.mp h with h | h
    · subst h
      simp only [List.foldl_cons]
      refine Nat.le_trans ?_ (kindFold_init_le ms _)
      by_cases hlt : Kind.ltb init n.kind
      · simp [hlt]
      · simp only [hlt, if_neg, Bool.false_eq_true, not_false_iff, ite_false]
        exact Nat.le_of_not_lt (by simpa [Kind.ltb] using hlt)
    · simpa only [List.foldl_cons] using ih _ n h

theorem kindFold_mem_or (notes : List Note) : ∀ init : Kind,
    (notes.foldl (fun rv n => if Kind.ltb rv n.kind then n.kind else rv) init) = init ∨
    (notes.foldl (fun rv n => if Kind.ltb rv n.kind then n.kind else rv) init) ∈
      notes.map Note.kind := by
  induction notes with
  | nil => intro init; exact Or.inl rfl
  | cons m ms ih =>
    intro init
    simp only [List.foldl_cons, List.map_cons]
    rcases ih (if Kind.ltb init m.kind then m.kind else init) with h | h
    · rw [h]
      by_cases hlt : Kind.ltb init m.kind
      · exact Or.inr (by simp [hlt])
      · exact Or.inl (by simp [hlt])
    · exact Or.inr (List.mem_cons_of_mem _ h)

/-- C9: for every Summary (including the empty one), `Summary.kind()` is
the maximum `Kind` over its notes under the total order
`None < Success < Warning < Failure` (encoded by `Kind.toNat`): it is an
upper bound of the note kinds, it is either `Kind.none` (the bottom) or
the kind of one of the notes, and for the empty summary it is
`Kind.none`. -/
theorem summary_kind_is_max (s : Summary) :
    (∀ n ∈ s, n.kind.toNat ≤ (summaryKind s).toNat) ∧
    (summaryKind s = Kind.none ∨ summaryKind s ∈ s.map Note.kind) ∧
    (s = [] → summaryKind s = Kind.none) := by
  refine ⟨fun n hn => kindFold_mem_le s Kind.none n hn, kindFold_mem_or s Kind.none, ?_⟩
  intro h; subst h; rfl

/-- Witness for C9 on a concrete summary: its kind is `warning`, which
bounds the `success` note's kind. -/
theorem summary_kind_is_max_witness :
    (Note.mk 0 Kind.success "fetched").kind.toNat ≤ (summaryKind demoNotes).toNat ∧
    summaryKind demoNotes = Kind.warning :=
  ⟨(summary_kind_is_max demoNotes).1 (Note.mk 0 Kind.success "fetched") (by decide),
   by decide⟩

/-- Reduction of the per-branch loop body for a branch that is only
behind and passes the HEAD cleanliness gate: it proceeds to the
fast-forward attempt. -/
theorem processBranch_behind_clean (b : BranchInfo) (g : GitState) (behind : Nat)
    (hab : b.aheadBehind = Except.ok (0, behind)) (hb : 0 < behind)
    (hclean : b.isHead = true → b.statuses = Except.ok 0) :
    processBranch b g = ffAttempt b g := by
  cases hh : b.isHead with
  | true => simp [processBranch, hab, hb, hclean hh, hh]
  | false => simp [processBranch, hab, hb, hh]

/-- C1: a tracking branch that is HEAD, behind its upstream, not ahead,
and whose worktree status query reports at least one entry (staged,
modified, or untracked file) is left untouched, and a Failure note
"(worktree is dirty)" is recorded. -/
theorem head_dirty_blocks_ff (b : BranchInfo) (g : GitState) (behind n : Nat)
    (hhead : b.isHead = true) (hab : b.aheadBehind = Except.ok (0, behind))
    (hb : 0 < behind) (hst : b.statuses = Except.ok n) (hn : 0 < n) :
    processBranch b g =
      ([Note.mk BRANCH_FAILURE_GROUP Kind.failure
          (ffErrorMessage b ++ " (worktree is dirty)")], g) := by
  simp [processBranch, hab, hb, hhead, hst, Nat.pos_iff_ne_zero.mp hn]

/-- Witness for C1: a concrete dirty HEAD branch two commits behind is
untouched and yields the dirty-worktree Failure note. -/
theorem head_dirty_blocks_ff_witness :
    processBranch dirtyHeadBranch baseState =
      ([Note.mk BRANCH_FAILURE_GROUP Kind.failure
          (ffErrorMessage dirtyHeadBranch ++ " (worktree is dirty)")], baseState) :=
  head_dirty_blocks_ff dirtyHeadBranch baseState 2 3 rfl rfl (by decide) rfl (by decide)

/-- C3: a tracking branch that is behind and not ahead, is either not
HEAD or has a completely clean worktree, and whose reference update (and,
for HEAD, hard reset) succeed, ends with the local reference at the
upstream oid and a "fast-forwarded `<local>` to `<upstream>`" Success
note recorded. -/
theorem ff_success_moves_ref (b : BranchInfo) (g : GitState) (behind : Nat)
    (hab : b.aheadBehind = Except.ok (0, behind)) (hb : 0 < behind)
    (hclean : b.isHead = true → b.statuses = Except.ok 0)
    (hset : b.setTarget = Option.none)
    (hreset : b.isHead = true → b.reset = Option.none) :
    (processBranch b g).2.refOid = b.upstreamOid ∧
    Note.mk BRANCH_STATUS_GROUP Kind.success
        ("fast-forwarded " ++ b.localName ++ " to " ++ b.upstreamName) ∈
      (processBranch b g).1 := by
  rw [processBranch_behind_clean b g behind hab hb hclean]
  cases hh : b.isHead with
  | true => simp [ffAttempt, hset, hreset hh, hh]
  | false => simp [ffAttempt, hset, hh]

/-- Witness for C3: a concrete clean HEAD branch one commit behind ends
at the upstream oid with the Success note. -/
theorem ff_success_moves_ref_witness :
    (processBranch cleanHeadBranch baseState).2.refOid = cleanHeadBranch.upstreamOid ∧
    Note.mk BRANCH_STATUS_GROUP Kind.success
        ("fast-forwarded " ++ cleanHeadBranch.localName ++ " to " ++
         cleanHeadBranch.upstreamName) ∈
      (processBranch cleanHeadBranch baseState).1 :=
  ff_success_moves_ref cleanHeadBranch baseState 1 rfl (by decide)
    (fun _ => rfl) rfl (fun _ => rfl)

/-- Counterexample to C2: a clean HEAD branch two commits behind whose
reference update succeeds but whose hard reset fails is NOT left as it
was: a Failure note is recorded, yet the reference has been moved to the
upstream oid (7) away from its original target (3) — partial state. -/
theorem ff_reset_failure_partial_state :
    (processBranch resetFailBranch baseState).2 ≠ baseState ∧
    (processBranch resetFailBranch baseState).2.refOid = resetFailBranch.upstreamOid ∧
    (∃ n ∈ (processBranch resetFailBranch baseState).1, n.kind = Kind.failure) := by
  decide

/-- C2 (amended): on a fast-forward attempt (behind, not ahead,
cleanliness gate passed), a failing step records a Failure note; if the
reference update itself fails the branch is left exactly as it was, but
if the update succeeds and the HEAD hard reset fails, the reference
remains moved to the upstream oid (the update is not rolled back) while
the worktree is untouched. -/
theorem ff_failure_reports_and_state (b : BranchInfo) (g : GitState) (behind : Nat)
    (hab : b.aheadBehind = Except.ok (0, behind)) (hb : 0 < behind)
    (hclean : b.isHead = true → b.statuses = Except.ok 0) :
    (∀ e, b.setTarget = Option.some e →
      processBranch b g =
        ([Note.mk BRANCH_STATUS_GROUP Kind.failure
            (ffErrorMessage b ++ " (" ++ e ++ ")")], g)) ∧
    (∀ e, b.setTarget = Option.none → b.isHead = true → b.reset = Option.some e →
      processBranch b g =
        ([Note.mk BRANCH_STATUS_GROUP Kind.failure
            ("failed to hard reset worktree (" ++ e ++ ")")],
         { g with refOid := b.upstreamOid })) := by
  rw [processBranch_behind_clean b g behind hab hb hclean]
  constructor
  · intro e he
    simp [ffAttempt, he, ffErrorMessage]
  · intro e hset hh hre
    simp [ffAttempt, hset, hh, hre]

/-- Witness for C2 (amended), at the concrete reset-failure branch: the
Failure note is recorded and the reference remains moved. -/
theorem ff_failure_reports_and_state_witness :
    processBranch resetFailBranch baseState =
      ([Note.mk BRANCH_STATUS_GROUP Kind.failure
          ("failed to hard reset worktree (" ++ "io error" ++ ")")],
       { baseState with refOid := resetFailBranch.upstreamOid }) :=
  (ff_failure_reports_and_state resetFailBranch baseState 2 rfl (by decide)
      (fun _ => rfl)).2 "io error" rfl rfl rfl

/-- C4: classification of a tracking branch after a successful fetch.
Diverged (ahead and behind both positive) yields exactly one Failure
note; ahead-only yields exactly one Warning note; up to date (neither)
yields exactly one `Kind.none` note. In all three cases the git state
(branch reference and worktree) is unchanged. -/
theorem branch_classification (b : BranchInfo) (g : GitState) (a bh : Nat)
    (hab : b.aheadBehind = Except.ok (a, bh)) :
    (0 < a ∧ 0 < bh →
      processBranch b g =
        ([Note.mk BRANCH_STATUS_GROUP Kind.failure
            (b.localName ++ " has diverged from " ++ b.upstreamName ++ " (" ++
             toString a ++ " and " ++ toString bh ++ " commits)")], g)) ∧
    (0 < a ∧ bh = 0 →
      processBranch b g =
        ([Note.mk BRANCH_STATUS_GROUP Kind.warning
            (b.localName ++ " is ahead of " ++ b.upstreamName ++ " by " ++
             toString a ++ " commit" ++ (if a = 1 then "" else "s"))], g)) ∧
    (a = 0 ∧ bh = 0 →
      processBranch b g =
        ([Note.mk BRANCH_STATUS_GROUP Kind.none
            (b.localName ++ " is up to date with " ++ b.upstreamName)], g)) := by
  refine ⟨?_, ?_, ?_⟩ <;> rintro ⟨h1, h2⟩ <;>
    simp [processBranch, hab, h1, h2]

/-- Witness for C4: a concrete diverged branch (ahead 1, behind 2) gets
exactly one Failure note and an unchanged git state. -/
theorem branch_classification_witness :
    (0 < 1 ∧ 0 < 2 →
      processBranch divergedBranch baseState =
        ([Note.mk BRANCH_STATUS_GROUP Kind.failure
            (divergedBranch.localName ++ " has diverged from " ++
             divergedBranch.upstreamName ++ " (" ++ toString 1 ++ " and " ++
             toString 2 ++ " commits)")], baseState)) ∧
    (0 < 1 ∧ (2 : Nat) = 0 →
      processBranch divergedBranch baseState =
        ([Note.mk BRANCH_STATUS_GROUP Kind.warning
            (divergedBranch.localName ++ " is ahead of " ++
             divergedBranch.upstreamName ++ " by " ++ toString 1 ++ " commit" ++
             (if (1 : Nat) = 1 then "" else "s"))], baseState)) ∧
    ((1 : Nat) = 0 ∧ (2 : Nat) = 0 →
      processBranch divergedBranch baseState =
        ([Note.mk BRANCH_STATUS_GROUP Kind.none
            (divergedBranch.localName ++ " is up to date with " ++
             divergedBranch.upstreamName)], baseState)) :=
  branch_classification divergedBranch baseState 1 2 rfl

/-- The launch loop never pushes `active` past the concurrency limit. -/
theorem launch_active_le (N : Nat) : ∀ (a : Nat) (q : List Nat), a ≤ N →
    (launch N a q).1 ≤ N := by
  intro a q
  induction q generalizing a with
  | nil => intro h; simpa [launch] using h
  | cons t rest ih =>
    intro h
    by_cases hlt : a < N
    · simpa [launch, hlt] using ih (a + 1) hlt
    · simpa [launch, hlt] using h

/-- One scheduler iteration keeps `active` within the limit. -/
theorem step_active_le (N : Nat) (s : Sched) (c : List (Nat × Summary)) (g : Nat)
    (h : s.active ≤ N) : (step N s c g).1.active ≤ N := by
  simp only [step]
  exact launch_active_le N _ _ (Nat.le_trans (Nat.sub_le _ _) h)

/-- The loop guard is false exactly when no worker is active and the
queue is empty. -/
theorem loopContinues_false_iff (s : Sched) :
    loopContinues s = false ↔ (s.active = 0 ∧ s.queue = []) := by
  simp [loopContinues, List.isEmpty_iff, Nat.pos_iff_ne_zero]

/-- C5: for every task list and concurrency `N ≥ 1`, every state the
scheduler loop passes through keeps the active counter between 0 and N,
and the loop guard `active > 0 || !queue.is_empty()` fails exactly when
`active == 0` and the queue is empty. -/
theorem scheduler_active_bounded (N : Nat) (_hN : 1 ≤ N) (s0 : Sched)
    (h0 : s0.active ≤ N) (inputs : List (List (Nat × Summary) × Nat)) :
    ∀ s ∈ schedStates N s0 inputs,
      (0 ≤ s.active ∧ s.active ≤ N) ∧
      (loopContinues s = false ↔ (s.active = 0 ∧ s.queue = [])) := by
  have key : ∀ (ins : List (List (Nat × Summary) × Nat)) (s1 : Sched),
      s1.active ≤ N → ∀ s ∈ schedStates N s1 ins, s.active ≤ N := by
    intro ins
    induction ins with
    | nil =>
      intro s1 h1 s hs
      rw [schedStates, List.mem_singleton] at hs
      subst hs; exact h1
    | cons i rest ih =>
      intro s1 h1 s hs
      rw [schedStates, List.mem_cons] at hs
      rcases hs with hs | hs
      · subst hs; exact h1
      · exact ih _ (step_active_le N s1 i.1 i.2 h1) s hs
  intro s hs
  exact ⟨⟨Nat.zero_le _, key inputs s0 h0 s hs⟩, loopContinues_false_iff s⟩

/-- Witness for C5: with concurrency 2 and three queued tasks, the
initial state of a concrete trace is within bounds and its guard holds
the termination characterization. -/
theorem scheduler_active_bounded_witness :
    (0 ≤ demoSched.active ∧ demoSched.active ≤ 2) ∧
    (loopContinues demoSched = false ↔ (demoSched.active = 0 ∧ demoSched.queue = [])) :=
  scheduler_active_bounded 2 (by decide) demoSched (by decide) demoInputs
    demoSched (by decide)

/-- A drained completion never maps to the `Fetching` UI state. -/
theorem stateOfKind_ne_fetching (k : Kind) : stateOfKind k ≠ TState.fetching := by
  cases k <;> simp [stateOfKind]

/-- Evaluation of one scheduler iteration in which the first termination
signal is observed: the queue is drained with `Canceled` updates, the
state moves to `Soft` (and straight on to `Hard` when two sigterms were
already observed), and nothing is launched. -/
theorem step_soft_eq (N : Nat) (s : Sched) (comps : List (Nat × Summary)) (g : Nat)
    (h1 : s.term = TermState.none) (h2 : 0 < g) :
    step N s comps g =
      ({ queue := [], active := s.active - comps.length,
         term := if 1 < g then TermState.hard else TermState.soft,
         txs := s.txs,
         sentTerm := if 1 < g then s.txs else s.sentTerm },
       comps.map (fun c => (c.1, stateOfKind (summaryKind c.2))) ++
         s.queue.map (fun t => (t, TState.canceled))) := by
  by_cases h3 : 1 < g <;> simp [step, h1, h2, h3, launch]

/-- Evaluation of one scheduler iteration after a termination signal has
already been processed (queue already drained): only completions are
reported, nothing is launched, and a second signal escalates `Soft` to
`Hard`, broadcasting the terminate message. -/
theorem step_after_cancel_eq (N : Nat) (s : Sched) (comps : List (Nat × Summary))
    (g : Nat) (h1 : s.term ≠ TermState.none) (hq0 : s.queue = []) :
    step N s comps g =
      ({ queue := [], active := s.active - comps.length,
         term := if s.term = TermState.soft ∧ 1 < g then TermState.hard else s.term,
         txs := s.txs,
         sentTerm := if s.term = TermState.soft ∧ 1 < g then s.txs else s.sentTerm },
       comps.map (fun c => (c.1, stateOfKind (summaryKind c.2)))) := by
  by_cases h3 : s.term = TermState.soft ∧ 1 < g <;>
    simp [step, h1, hq0, h3, launch]

/-- No element of the drained-completions event list is a `Fetching`
update. -/
theorem fetching_not_in_drain (comps : List (Nat × Summary)) (t : Nat) :
    (t, TState.fetching) ∉
      comps.map (fun c => (c.1, stateOfKind (summaryKind c.2))) := by
  intro h
  rcases List.mem_map.mp h with ⟨c, -, hc⟩
  exact stateOfKind_ne_fetching (summaryKind c.2) (congrArg Prod.snd hc)

/-- C6: one scheduler iteration, under the invariant that the queue is
already empty once a termination signal has been processed. On the first
signal (`None`, at least one sigterm): every queued task gets a
`Canceled` UI update, the queue is emptied, and no `Fetching` update is
emitted. After any signal (`term ≠ None`): no `Fetching` update is ever
emitted, the queue stays empty, and the termination state never returns
to `None`. On the second signal (from `Soft`, or directly from `None`
with two sigterms observed): the state becomes `Hard`, a terminate
message is sent to every spawned worker's channel, and the final report
is suppressed. -/
theorem scheduler_cancellation (N : Nat) (s : Sched) (comps : List (Nat × Summary))
    (g : Nat) (rep : List String) (hq : s.term ≠ TermState.none → s.queue = []) :
    (s.term = TermState.none ∧ 0 < g →
      (∀ t ∈ s.queue, (t, TState.canceled) ∈ (step N s comps g).2) ∧
      (step N s comps g).1.queue = [] ∧
      (∀ t, (t, TState.fetching) ∉ (step N s comps g).2)) ∧
    (s.term ≠ TermState.none →
      (∀ t, (t, TState.fetching) ∉ (step N s comps g).2) ∧
      (step N s comps g).1.queue = [] ∧
      (step N s comps g).1.term ≠ TermState.none) ∧
    (s.term = TermState.soft ∧ 1 < g →
      (step N s comps g).1.term = TermState.hard ∧
      (step N s comps g).1.sentTerm = s.txs ∧
      finalReport (step N s comps g).1 rep = Option.none) ∧
    (s.term = TermState.none ∧ 1 < g →
      (step N s comps g).1.term = TermState.hard ∧
      (step N s comps g).1.sentTerm = s.txs ∧
      finalReport (step N s comps g).1 rep = Option.none) := by
  refine ⟨?_, ?_, ?_, ?_⟩
  · rintro ⟨h1, h2⟩
    rw [step_soft_eq N s comps g h1 h2]
    refine ⟨?_, rfl, ?_⟩
    · intro t ht
      exact List.mem_append_right _ (List.mem_map_of_mem _ ht)
    · intro t ht
      rcases List.mem_append.mp ht with h | h
      · exact fetching_not_in_drain comps t h
      · rcases List.mem_map.mp h with ⟨u, -, hu⟩
        exact TState.noConfusion (congrArg Prod.snd hu)
  · intro h1
    rw [step_after_cancel_eq N s comps g h1 (hq h1)]
    refine ⟨fun t => fetching_not_in_drain comps t, rfl, ?_⟩
    by_cases h3 : s.term = TermState.soft ∧ 1 < g
    · simp [h3]
    · simp [h3]; exact h1
  · rintro ⟨h1, h2⟩
    have h1n : s.term ≠ TermState.none := by rw [h1]; intro hc; cases hc
    rw [step_after_cancel_eq N s comps g h1n (hq h1n)]
    simp [h1, h2, finalReport]
  · rintro ⟨h1, h2⟩
    rw [step_soft_eq N s comps g h1 (Nat.lt_of_succ_lt h2)]
    simp [h2, finalReport]

/-- Witness for C6 at a concrete state (two queued tasks, one worker
running, first signal observed together with a second): the queue is
emptied and the final report is suppressed. -/
theorem scheduler_cancellation_witness :
    (step 8 c6Sched [] 2).1.queue = [] ∧
    (step 8 c6Sched [] 2).1.term = TermState.hard ∧
    (step 8 c6Sched [] 2).1.sentTerm = c6Sched.txs ∧
    finalReport (step 8 c6Sched [] 2).1 ["report"] = Option.none := by
  have h := scheduler_cancellation 8 c6Sched [] 2 ["report"] (by decide)
  exact ⟨(h.1 ⟨rfl, by decide⟩).2.1, (h.2.2.2 ⟨rfl, by decide⟩).1,
    (h.2.2.2 ⟨rfl, by decide⟩).2.1, (h.2.2.2 ⟨rfl, by decide⟩).2.2⟩

/-- Counterexample to C7: after hard cancellation, a worker killed while
fetching still returns the empty summary, which is still sent on the
results channel; when the scheduler drains it, it emits a UI update
moving the task (here task 0, previously `Fetching`) to `NoChange` — the
displayed state does not stay `Fetching`. -/
theorem killed_worker_becomes_nochange :
    (step 8 c7Sched
        [(0, fetchAndFF true Option.none "origin" (Except.ok []))] 2).2 =
      [(0, TState.noChange)] ∧
    TState.noChange ≠ TState.fetching := by
  decide

/-- C7 (amended): on hard cancellation the killed worker performs no
branch work and returns `Summary::new()`, but that empty summary is still
sent to and drained by the scheduler, whose drain step emits exactly one
UI update for the task — to `NoChange` (the empty summary's kind is
`None`), not a retained `Fetching`. -/
theorem hard_cancel_worker_reports_nochange (N tid g2 : Nat) (s : Sched)
    (fe : Option String) (r : String)
    (brs : Except (List String) (List (BranchInfo × GitState)))
    (hterm : s.term = TermState.hard) (hqe : s.queue = []) :
    (step N s [(tid, fetchAndFF true fe r brs)] g2).2 = [(tid, TState.noChange)] := by
  have h1 : s.term ≠ TermState.none := by rw [hterm]; intro hc; cases hc
  rw [step_after_cancel_eq N s [(tid, fetchAndFF true fe r brs)] g2 h1 hqe]
  simp [fetchAndFF, summaryNew, summaryKind, stateOfKind]

/-- Witness for C7 (amended) at the concrete post-hard-cancel scheduler
state. -/
theorem hard_cancel_worker_reports_nochange_witness :
    (step 8 c7Sched
        [(5, fetchAndFF true Option.none "origin" (Except.ok []))] 2).2 =
      [(5, TState.noChange)] :=
  hard_cancel_worker_reports_nochange 8 5 2 c7Sched Option.none "origin"
    (Except.ok []) rfl rfl

/-- Counterexample to C8: with one valid tracking branch ("dev") and one
branch failing validation, `TrackingBranches::get` returns only the error
list — the valid branch is not returned — and `fetch_and_ff` then records
just the fetch note and the Failure note, processing no branch at all. -/
theorem validation_error_drops_valid_branches :
    trackingBranchesGet
        (Except.ok [Except.ok validLocalBranch, Except.ok invalidLocalBranch]) =
      Except.error ["local branch name is not valid utf-8"] ∧
    fetchAndFF false Option.none "origin"
        (Except.error ["local branch name is not valid utf-8"]) =
      [Note.mk FETCH_SUCCESS_GROUP Kind.none "fetched from origin",
       Note.mk BRANCH_FAILURE_GROUP Kind.failure
         "local branch name is not valid utf-8"] := by
  constructor <;> rfl

/-- C8 (amended): each branch failing validation is recorded as a
Failure note, but a validation failure IS fatal to the repository's
reconciliation in that run: whenever any branch of the repository fails
validation, the enumeration returns only the error messages — no branch
(valid or not) is returned — and `fetch_and_ff` records the fetch note
followed by one Failure note per validation error, processing no
branches. -/
theorem validation_errors_fatal_to_repo
    (items : List (Except String LocalBranchData)) (remote : String)
    (herr : validationErrors items ≠ []) :
    trackingBranchesGet (Except.ok items) = Except.error (validationErrors items) ∧
    fetchAndFF false Option.none remote (Except.error (validationErrors items)) =
      Note.mk FETCH_SUCCESS_GROUP Kind.none ("fetched from " ++ remote) ::
        (validationErrors items).map
          (fun e => Note.mk BRANCH_FAILURE_GROUP Kind.failure e) := by
  constructor
  · simp [trackingBranchesGet, List.isEmpty_iff, herr]
  · rfl

/-- Witness for C8 (amended) on the concrete two-branch repository. -/
theorem validation_errors_fatal_to_repo_witness :
    trackingBranchesGet
        (Except.ok [Except.ok validLocalBranch, Except.ok invalidLocalBranch]) =
      Except.error (validationErrors
        [Except.ok validLocalBranch, Except.ok invalidLocalBranch]) ∧
    fetchAndFF false Option.none "origin"
        (Except.error (validationErrors
          [Except.ok validLocalBranch, Except.ok invalidLocalBranch])) =
      Note.mk FETCH_SUCCESS_GROUP Kind.none ("fetched from " ++ "origin") ::
        (validationErrors
            [Except.ok validLocalBranch, Except.ok invalidLocalBranch]).map
          (fun e => Note.mk BRANCH_FAILURE_GROUP Kind.failure e) :=
  validation_errors_fatal_to_repo
    [Except.ok validLocalBranch, Except.ok invalidLocalBranch] "origin" (by decide)

/-- A branch the validation loop found valid has a decodable local name,
a resolvable local oid, an upstream, a decodable upstream name, and a
resolvable upstream oid. -/
theorem checkBranch_valid (i : Except String LocalBranchData) (b : LocalBranchData)
    (h : checkBranch i = BranchCheck.valid b) :
    localNameAcc b ≠ Option.none ∧ localOidAcc b ≠ Option.none ∧
    upstreamAcc b ≠ Option.none ∧ upstreamNameAcc b ≠ Option.none ∧
    upstreamOidAcc b ≠ Option.none := by
  cases i with
  | error e => simp [checkBranch] at h
  | ok l =>
    rcases hname : l.name with e | oname
    · simp [checkBranch, hname] at h
    · rcases oname with _ | lname
      · simp [checkBranch, hname] at h
      · by_cases htgt : l.target = Option.none
        · simp [checkBranch, hname, htgt] at h
        · rcases hup : l.upstream with _ | u
          · simp [checkBranch, hname, htgt, hup] at h
          · rcases huname : u.name with e | ouname
            · simp [checkBranch, hname, htgt, hup, huname] at h
            · rcases ouname with _ | uname
              · simp [checkBranch, hname, htgt, hup, huname] at h
              · by_cases hut : u.target = Option.none
                · simp [checkBranch, hname, htgt, hup, huname, hut] at h
                · have hb : b = l := by
                    simp [checkBranch, hname, htgt, hup, huname, hut] at h
                    exact h.symm
                  subst hb
                  refine ⟨?_, htgt, ?_, ?_, ?_⟩
                  · simp [localNameAcc, hname]
                  · simp [upstreamAcc, hup]
                  · simp [upstreamNameAcc, hup, huname]
                  · simpa [upstreamOidAcc, hup] using hut

/-- A member of the valid-branch list comes from an iterator item the
validation loop accepted. -/
theorem mem_validBranches (items : List (Except String LocalBranchData))
    (b : LocalBranchData) (h : b ∈ validBranches items) :
    ∃ i, checkBranch i = BranchCheck.valid b := by
  unfold validBranches at h
  rcases List.mem_filterMap.mp h with ⟨i, -, hmap⟩
  refine ⟨i, ?_⟩
  rcases hc : checkBranch i with b2 | m | _ <;> simp_all

/-- A branch returned by a successful `TrackingBranches::get` was
accepted by the validation loop. -/
theorem get_ok_mem (branches : Except String (List (Except String LocalBranchData)))
    (bs : List LocalBranchData) (hok : trackingBranchesGet branches = Except.ok bs)
    (b : LocalBranchData) (hb : b ∈ bs) :
    ∃ i, checkBranch i = BranchCheck.valid b := by
  cases branches with
  | error e => simp [trackingBranchesGet] at hok
  | ok items =>
    by_cases he : (validationErrors items).isEmpty
    · rw [trackingBranchesGet] at hok
      simp only [he, if_pos, Except.ok.injEq] at hok
      exact mem_validBranches items b (hok ▸ hb)
    · simp [trackingBranchesGet, he] at hok

/-- A branch returned by a successful `TrackingBranches::for_remote` was
accepted by the validation loop. -/
theorem forRemote_ok_mem (branches : Except String (List (Except String LocalBranchData)))
    (remote : String) (bs : List LocalBranchData)
    (hok : forRemote branches remote = Except.ok bs)
    (b : LocalBranchData) (hb : b ∈ bs) :
    ∃ i, checkBranch i = BranchCheck.valid b := by
  unfold forRemote at hok
  rcases hg : trackingBranchesGet branches with e | bs0 <;> rw [hg] at hok
  · cases hok
  · simp only [Except.ok.injEq] at hok
    exact get_ok_mem branches bs0 hg b (List.mem_of_mem_filter (hok ▸ hb))

/-- C10: every branch yielded by `TrackingBranches::for_repository` or
`TrackingBranches::for_remote` supports all five accessors — the
`expect` failure branches of `local_name`, `local_oid`, `upstream`,
`upstream_name`, and `upstream_oid` are unreachable because construction
validated the underlying data. -/
theorem tracking_branch_accessors_safe
    (branches : Except String (List (Except String LocalBranchData)))
    (remote : String) (bs : List LocalBranchData) (b : LocalBranchData) :
    (forRepository branches = Except.ok bs → b ∈ bs →
      localNameAcc b ≠ Option.none ∧ localOidAcc b ≠ Option.none ∧
      upstreamAcc b ≠ Option.none ∧ upstreamNameAcc b ≠ Option.none ∧
      upstreamOidAcc b ≠ Option.none) ∧
    (forRemote branches remote = Except.ok bs → b ∈ bs →
      localNameAcc b ≠ Option.none ∧ localOidAcc b ≠ Option.none ∧
      upstreamAcc b ≠ Option.none ∧ upstreamNameAcc b ≠ Option.none ∧
      upstreamOidAcc b ≠ Option.none) := by
  constructor
  · intro hok hb
    rcases get_ok_mem branches bs hok b hb with ⟨i, hi⟩
    exact checkBranch_valid i b hi
  · intro hok hb
    rcases forRemote_ok_mem branches remote bs hok b hb with ⟨i, hi⟩
    exact checkBranch_valid i b hi

/-- Witness for C10 on a concrete repository with a single valid
tracking branch. -/
theorem tracking_branch_accessors_safe_witness :
    localNameAcc validLocalBranch ≠ Option.none ∧
    localOidAcc validLocalBranch ≠ Option.none ∧
    upstreamAcc validLocalBranch ≠ Option.none ∧
    upstreamNameAcc validLocalBranch ≠ Option.none ∧
    upstreamOidAcc validLocalBranch ≠ Option.none :=
  (tracking_branch_accessors_safe (Except.ok [Except.ok validLocalBranch]) "origin"
      [validLocalBranch] validLocalBranch).1 (by decide) (by decide)

end Mgit
